import Mathlib

/-!
Verification of the documentation-maintenance scripts
(`validate_examples.py` and `fix_common_issues.py`).

Text is modelled as `List Char`.  Python regular expressions used by the
scripts are simple enough that their matching behaviour is embedded
directly as scanning functions (the lazy/greedy backtracking of each
concrete pattern is resolved by hand; comments at each definition record
the pattern it embeds).  External library calls (`ast.parse`,
`importlib.util.find_spec`, `requests`) are parameters of the embedding;
`json.loads` is embedded concretely, following the grammar of CPython's
`json` module.
-/

namespace DocsVal

/-- Double quote character. -/
def dq : Char := '"'

/-- Single quote character. -/
def sq : Char := '\x27'

/-- Opening brace character. -/
def obr : Char := '\x7b'

/-- Closing brace character. -/
def cbr : Char := '\x7d'

/-- Backtick character. -/
def btk : Char := '\x60'

/-- Python `str.strip` / regex `\s` whitespace set (ASCII). -/
def isSpaceCh (c : Char) : Bool :=
  c = ' ' || c = '\t' || c = '\n' || c = '\r' || c = '\x0b' || c = '\x0c'

/-- Regex `\w` word characters (the documents are ASCII). -/
def isWordCh (c : Char) : Bool := c.isAlphanum || c = '_'

/-- Does `cs` start with `pat`? -/
def startsWithL : List Char → List Char → Bool
  | [], _ => true
  | _ :: _, [] => false
  | p :: ps, c :: cs => p == c && startsWithL ps cs

/-- Python's substring test `pat in cs` (for non-empty `pat`). -/
def containsSub (pat : List Char) : List Char → Bool
  | [] => startsWithL pat []
  | c :: cs => startsWithL pat (c :: cs) || containsSub pat cs

/-- Prefix of `cs` before the first occurrence of `pat` (all of `cs`
when there is none); models `cs.split(pat)[0]`. -/
def takeUntilSub (pat : List Char) : List Char → List Char
  | [] => []
  | c :: cs => if startsWithL pat (c :: cs) then [] else c :: takeUntilSub pat cs

/-- Python `str.strip()`. -/
def stripL (cs : List Char) : List Char :=
  ((cs.dropWhile isSpaceCh).reverse.dropWhile isSpaceCh).reverse

/-- Python `str.split('\n')`. -/
def splitNl : List Char → List (List Char)
  | [] => [[]]
  | c :: cs =>
    if c = '\n' then [] :: splitNl cs
    else
      match splitNl cs with
      | [] => [[c]]
      | l :: ls => (c :: l) :: ls

/-- Python `'\n'.join`. -/
def joinNl : List (List Char) → List Char
  | [] => []
  | [x] => x
  | x :: xs => x ++ '\n' :: joinNl xs

/-- Python `' '.join`. -/
def joinSp : List (List Char) → List Char
  | [] => []
  | [x] => x
  | x :: xs => x ++ ' ' :: joinSp xs

/-- Python `str.replace(pat, rep)` (and `re.sub` for a literal pattern):
left-to-right, non-overlapping.  `fuel` bounds the recursion; `cs.length`
is always enough because every step consumes at least one character. -/
def substAll : Nat → List Char → List Char → List Char → List Char
  | 0, _, _, cs => cs
  | _ + 1, _, _, [] => []
  | f + 1, pat, rep, c :: cs =>
    if startsWithL pat (c :: cs) then rep ++ substAll f pat rep ((c :: cs).drop pat.length)
    else c :: substAll f pat rep cs

/-- Python `str.replace(pat, rep)`. -/
def str_replace (pat rep cs : List Char) : List Char := substAll cs.length pat rep cs

/-- A fenced code block: language tag and (stripped, non-empty) body,
as produced by `DocumentationValidator.extract_code_blocks`. -/
structure CodeBlock where
  language : List Char
  code : List Char
deriving DecidableEq, Repr

/-- The fence delimiter, three backticks. -/
def fenceMark : List Char := [btk, btk, btk]

/-- One attempted match of `` ```(\w+)?\s*([^`]*?)``` `` (DOTALL) at the
head of `cs`.  The lazy body cannot cross a backtick, so the match
succeeds exactly when, after the opening fence, the maximal `\w` run
(the language tag) and the maximal `\s` run, the next backtick in the
text starts another triple fence; the body is everything in between.
Returns `(language, body, rest-after-match)`. -/
def fenceMatch (cs : List Char) : Option (List Char × List Char × List Char) :=
  if startsWithL fenceMark cs then
    let t := cs.drop 3
    let lang := t.takeWhile isWordCh
    let t1 := t.drop lang.length
    let t2 := t1.drop (t1.takeWhile isSpaceCh).length
    let body := t2.takeWhile (fun c => !(c == btk))
    let t3 := t2.drop body.length
    if startsWithL fenceMark t3 then some (lang, body, t3.drop 3) else none
  else none

/-- Scan of `re.finditer` for the fence pattern: leftmost, non-overlapping,
continuing after each match. -/
def scanFences : Nat → List Char → List (List Char × List Char)
  | 0, _ => []
  | _ + 1, [] => []
  | f + 1, c :: cs =>
    match fenceMatch (c :: cs) with
    | some (lang, body, rest) => (lang, body) :: scanFences f rest
    | none => scanFences f cs

/-- Embedding of `DocumentationValidator.extract_code_blocks`: fenced blocks with the
body stripped, empty bodies dropped, missing language tag = `text`. -/
def extract_code_blocks (content : List Char) : List CodeBlock :=
  (scanFences content.length content).filterMap fun lb =>
    let code := stripL lb.2
    if code.isEmpty then none
    else some ⟨if lb.1.isEmpty then "text".data else lb.1, code⟩

/-- Shell-like language tags recognized for curl extraction. -/
def shellLangs : List (List Char) := ["bash".data, "shell".data, "curl".data]

/-- Line-grouping loop of `extract_curl_commands`: `cur` is the current
command's accumulated (stripped) lines. -/
def groupCurl : List (List Char) → List (List Char) → List (List Char)
  | cur, [] => if cur.isEmpty then [] else [joinSp cur]
  | cur, l :: ls =>
    let line := stripL l
    if startsWithL "curl".data line then
      (if cur.isEmpty then [] else [joinSp cur]) ++ groupCurl [line] ls
    else if !cur.isEmpty &&
        (startsWithL ['-'] line || startsWithL [dq] line || containsSub ['\\'] line) then
      groupCurl (cur ++ [line]) ls
    else if !cur.isEmpty then
      joinSp cur :: groupCurl [] ls
    else
      groupCurl [] ls

/-- Embedding of `DocumentationValidator.extract_curl_commands` (only the joined
command strings; the block back-reference is unused by the checks). -/
def extract_curl_commands (content : List Char) : List (List Char) :=
  (((extract_code_blocks content).filter fun b => shellLangs.contains b.language).map
    fun b => groupCurl [] (splitNl b.code)).flatten

/-! JSON parsing, embedding CPython's `json.loads` (module `json`,
default arguments: strict strings, `parse_constant` accepting `NaN`,
`Infinity`, `-Infinity`).  The parsers return the unconsumed rest on
success. -/

/-- JSON whitespace (`json.decoder.WHITESPACE`). -/
def jsonWsCh (c : Char) : Bool := c = ' ' || c = '\t' || c = '\n' || c = '\r'

/-- Skip JSON whitespace. -/
def skipWs (cs : List Char) : List Char := cs.dropWhile jsonWsCh

/-- Hexadecimal digit test. -/
def isHexCh (c : Char) : Bool :=
  c.isDigit || ('a' ≤ c && c ≤ 'f') || ('A' ≤ c && c ≤ 'F')

/-- Body of a JSON string after the opening quote (`json.decoder.scanstring`,
strict mode: unescaped control characters are rejected). -/
def parseJsonStr : Nat → List Char → Option (List Char)
  | 0, _ => none
  | _ + 1, [] => none
  | f + 1, c :: cs =>
    if c = dq then some cs
    else if c = '\\' then
      match cs with
      | [] => none
      | e :: cs' =>
        if e = dq || e = '\\' || e = '/' || e = 'b' || e = 'f' ||
            e = 'n' || e = 'r' || e = 't' then parseJsonStr f cs'
        else if e = 'u' then
          match cs' with
          | h1 :: h2 :: h3 :: h4 :: rest =>
            if isHexCh h1 && isHexCh h2 && isHexCh h3 && isHexCh h4 then
              parseJsonStr f rest
            else none
          | _ => none
        else none
    else if c.toNat < 32 then none
    else parseJsonStr f cs

/-- Wrapper with sufficient fuel. -/
def pstr (cs : List Char) : Option (List Char) := parseJsonStr (cs.length + 1) cs

/-- One or more decimal digits (`\d+`). -/
def parseDigits1 (cs : List Char) : Option (List Char) :=
  let ds := cs.takeWhile Char.isDigit
  if ds.isEmpty then none else some (cs.drop ds.length)

/-- Integer part `(0|[1-9]\d*)` of `json.decoder.NUMBER_RE`. -/
def parseIntPart : List Char → Option (List Char)
  | [] => none
  | c :: cs =>
    if c = '0' then some cs
    else if c.isDigit then some (cs.dropWhile Char.isDigit)
    else none

/-- Number regex `json.decoder.NUMBER_RE`: `-?(0|[1-9]\d*)(\.\d+)?([eE][-+]?\d+)?`,
greedy in each optional group. -/
def parseNumber (cs : List Char) : Option (List Char) :=
  let cs1 := if startsWithL ['-'] cs then cs.drop 1 else cs
  match parseIntPart cs1 with
  | none => none
  | some cs2 =>
    let cs3 :=
      match cs2 with
      | '.' :: r =>
        match parseDigits1 r with
        | some r' => r'
        | none => cs2
      | _ => cs2
    match cs3 with
    | e :: r =>
      if e = 'e' || e = 'E' then
        let r1 := if startsWithL ['+'] r || startsWithL ['-'] r then r.drop 1 else r
        match parseDigits1 r1 with
        | some r' => some r'
        | none => some cs3
      else some cs3
    | [] => some cs3

mutual

/-- A JSON value (`json.scanner.py_make_scanner`'s `_scan_once`).  `fuel`
bounds nesting plus consumed characters; `2 * length + 2` always
suffices. -/
def parseVal : Nat → List Char → Option (List Char)
  | 0, _ => none
  | f + 1, cs =>
    match cs with
    | [] => none
    | c :: rest =>
      if c = dq then pstr rest
      else if c = obr then
        let r := skipWs rest
        match r with
        | c2 :: r' => if c2 = cbr then some r' else parseMembers f r
        | [] => none
      else if c = '[' then
        let r := skipWs rest
        match r with
        | c2 :: r' => if c2 = ']' then some r' else parseElems f r
        | [] => none
      else if startsWithL "null".data cs then some (cs.drop 4)
      else if startsWithL "true".data cs then some (cs.drop 4)
      else if startsWithL "false".data cs then some (cs.drop 5)
      else
        match parseNumber cs with
        | some r => some r
        | none =>
          if startsWithL "NaN".data cs then some (cs.drop 3)
          else if startsWithL "Infinity".data cs then some (cs.drop 8)
          else if startsWithL "-Infinity".data cs then some (cs.drop 9)
          else none

/-- Members of a JSON object, starting at a key (`json.decoder.JSONObject`):
`"key" \s* : \s* value \s*` then `}` or `, \s*` and more members.  No
trailing comma is accepted. -/
def parseMembers : Nat → List Char → Option (List Char)
  | 0, _ => none
  | f + 1, cs =>
    match cs with
    | c :: rest =>
      if c = dq then
        match pstr rest with
        | none => none
        | some r1 =>
          match skipWs r1 with
          | ':' :: r3 =>
            match parseVal f (skipWs r3) with
            | none => none
            | some r4 =>
              match skipWs r4 with
              | c2 :: r6 =>
                if c2 = cbr then some r6
                else if c2 = ',' then parseMembers f (skipWs r6)
                else none
              | [] => none
          | _ => none
      else none
    | [] => none

/-- Elements of a JSON array, starting at a value
(`json.decoder.JSONArray`).  No trailing comma is accepted. -/
def parseElems : Nat → List Char → Option (List Char)
  | 0, _ => none
  | f + 1, cs =>
    match parseVal f cs with
    | none => none
    | some r1 =>
      match skipWs r1 with
      | ']' :: r3 => some r3
      | ',' :: r3 => parseElems f (skipWs r3)
      | _ => none

end

/-- Does `json.loads` succeed on `cs`?  (`JSONDecoder.decode`: leading and
trailing whitespace allowed, all input must be consumed.) -/
def jsonLoadsOk (cs : List Char) : Bool :=
  match parseVal (2 * cs.length + 2) (skipWs cs) with
  | some r => (skipWs r).isEmpty
  | none => false

/-- Trailing-comma removal within one line: `re.sub(r',(\s*[}\]])', r'\1', line)`.
The character class `[}\]]` is not whitespace, so the greedy `\s*` never
backtracks: a comma is dropped exactly when its maximal following
whitespace run is followed by `}` or `]`. -/
def stripTrailingCommas : Nat → List Char → List Char
  | 0, cs => cs
  | _ + 1, [] => []
  | f + 1, c :: cs =>
    if c = ',' then
      let ws := cs.takeWhile isSpaceCh
      match cs.drop ws.length with
      | b :: r' =>
        if b = cbr || b = ']' then ws ++ b :: stripTrailingCommas f r'
        else c :: stripTrailingCommas f cs
      | [] => c :: stripTrailingCommas f cs
    else c :: stripTrailingCommas f cs

/-- Embedding of `DocumentationValidator.clean_json_code`: line by line, drop `//`
comments, then drop trailing commas before closing braces/brackets. -/
def clean_json_code (cs : List Char) : List Char :=
  joinNl ((splitNl cs).map fun l =>
    let l1 := if containsSub "//".data l then takeUntilSub "//".data l else l
    stripTrailingCommas l1.length l1)

/-- Placeholder tokens of `DocumentationValidator.is_template_json`. -/
def placeholders : List (List Char) :=
  ["<token>".data, "<TOKEN>".data, "...".data, "your-".data, "YOUR_".data, "EXAMPLE".data]

/-- Embedding of `DocumentationValidator.is_template_json`. -/
def is_template_json (cs : List Char) : Bool :=
  placeholders.any fun p => containsSub p cs

/-- Placeholder for the text of a Python exception interpolated into a
message (the exception text itself is irrelevant to the checks). -/
def excTag : List Char := "<exception>".data

/-- Error/warning contribution of one JSON-tagged block inside
`DocumentationValidator.validate_json_examples`: parse the cleaned text;
on failure record an error, downgraded to a warning when the original
text contains a placeholder. -/
def json_block_result (fn code : List Char) : List (List Char) × List (List Char) :=
  if jsonLoadsOk (clean_json_code code) then ([], [])
  else if is_template_json code then
    ([], [fn ++ ": Template JSON with placeholders: ".data ++ excTag])
  else
    ([fn ++ ": Invalid JSON in code block: ".data ++ excTag], [])

/-- Embedding of `DocumentationValidator.validate_json_examples`: scan the whole
document for JSON-tagged blocks and accumulate each block's result. -/
def validate_json_examples (content fn : List Char) : List (List Char) × List (List Char) :=
  let res := ((extract_code_blocks content).filter fun b => b.language == "json".data).map
    fun b => json_block_result fn b.code
  ((res.map Prod.fst).flatten, (res.map Prod.snd).flatten)

/-! URL extraction and endpoint checks. -/

/-- Characters allowed in the URL body:
`[^\s\'"<>{}|\\^`\[\]]` of the pattern in `validate_api_endpoints`. -/
def urlChA (c : Char) : Bool :=
  !(isSpaceCh c || [sq, dq, '<', '>', obr, cbr, '|', '\\', '^', btk, '[', ']'].contains c)

/-- Characters allowed as the final URL character (additionally excludes
trailing punctuation). -/
def urlChB (c : Char) : Bool :=
  urlChA c && !(['.', ',', ';', ':', '!', '?'].contains c)

/-- One attempted match of
`https?://[^\s\'"<>{}|\\^`\[\]]+[^\s\'"<>{}|\\^`\[\].,;:!?]` at the head
of `cs`: after the scheme, the greedy body takes the maximal `urlChA`
run, then backtracks until its last character satisfies `urlChB`; at
least two body characters are required.  Returns `(url, rest)`. -/
def url_match_go (scheme rest : List Char) : Option (List Char × List Char) :=
  let run := rest.takeWhile urlChA
  let keep := (run.reverse.dropWhile fun c => !(urlChB c)).reverse
  if 2 ≤ keep.length then some (scheme ++ keep, rest.drop keep.length) else none

/-- Dispatch on the scheme alternation `https?://`. -/
def url_match (cs : List Char) : Option (List Char × List Char) :=
  if startsWithL "https://".data cs then url_match_go "https://".data (cs.drop 8)
  else if startsWithL "http://".data cs then url_match_go "http://".data (cs.drop 7)
  else none

/-- Scan of `re.findall` for the URL pattern. -/
def find_urls : Nat → List Char → List (List Char)
  | 0, _ => []
  | _ + 1, [] => []
  | f + 1, c :: cs =>
    match url_match (c :: cs) with
    | some (u, rest) => u :: find_urls f rest
    | none => find_urls f cs

/-- Per-URL cleanup in `validate_api_endpoints`:
`re.sub(r'[.,;:!?\'">\])}]+$', '', url)`. -/
def clean_url (u : List Char) : List Char :=
  (u.reverse.dropWhile fun c =>
    ['.', ',', ';', ':', '!', '?', sq, dq, '>', ']', ')', cbr].contains c).reverse

/-- The literal expansions of the prefix regexes in
`validate_lyceum_endpoint_structure` (`re.match` anchors only the
start, so each alternation is a plain literal prefix). -/
def expected_shapes : List (List Char) :=
  [ "https://api.lyceum.technology/api/v2/external/execution/python/start".data
  , "https://api.lyceum.technology/api/v2/external/execution/image/start".data
  , "https://api.lyceum.technology/api/v2/external/storage/upload".data
  , "https://api.lyceum.technology/api/v2/external/storage/download".data
  , "https://api.lyceum.technology/api/v2/external/storage/list-files".data
  , "https://api.lyceum.technology/api/v2/external/storage/credentials".data
  , "https://api.lyceum.technology/api/v2/external/storage/delete".data
  , "https://api.lyceum.technology/api/v2/external/billing/credits".data
  , "https://api.lyceum.technology/api/v2/external/billing/checkout".data
  , "https://api.lyceum.technology/api/v2/external/billing/history".data
  , "https://api.lyceum.technology/api/v2/external/billing/activities".data
  , "https://dashboard.lyceum.technology".data ]

/-- Embedding of `DocumentationValidator.validate_lyceum_endpoint_structure`: warn
(never error) when no expected shape prefix-matches; the function
returns `True` either way.  Result is `(errors, warnings)`. -/
def validate_lyceum_endpoint_structure (url fn : List Char) :
    List (List Char) × List (List Char) :=
  if expected_shapes.any (fun p => startsWithL p url) then ([], [])
  else ([], [fn ++ ": Unrecognized Lyceum endpoint pattern: ".data ++ url])

/-- Outcome of an HTTP request issued by the validator.  The network is
external to the program, so responses are a parameter of the embedding:
`exn` is a raised `requests` exception, otherwise a status code plus,
for the credits endpoint, whether the JSON body decodes
(`none` = not JSON, `some b` = JSON with/without `available_credits`). -/
inductive HttpResult where
  | exn (msg : List Char)
  | resp (status : Nat) (creditsField : Option Bool)
deriving DecidableEq, Repr

/-- Embedding of `DocumentationValidator.test_endpoint` (public endpoints): status
at least 400 or a network failure is a warning.  Returns
`(warnings, ok)`; it never records errors. -/
def test_endpoint_result (r : HttpResult) (url fn : List Char) :
    List (List Char) × Bool :=
  match r with
  | .exn m => ([fn ++ ": Could not reach endpoint ".data ++ url ++ ": ".data ++ m], false)
  | .resp s _ =>
    if 400 ≤ s then
      ([fn ++ ": Endpoint ".data ++ url ++ " returned status ".data ++ (Nat.repr s).data], false)
    else ([], true)

/-- Embedding of `DocumentationValidator.test_lyceum_endpoint`: 401 is an error
(authentication failure), 403 a warning, 5xx and other 4xx warnings; on
a 200 from the credits endpoint the body is checked for
`available_credits`.  Returns `(errors, warnings, ok)`. -/
def test_lyceum_endpoint (r : HttpResult) (url fn : List Char) :
    List (List Char) × List (List Char) × Bool :=
  match r with
  | .exn m =>
    ([], [fn ++ ": Could not reach Lyceum endpoint ".data ++ url ++ ": ".data ++ m], false)
  | .resp s body =>
    if s = 401 then
      ([fn ++ ": Authentication failed for ".data ++ url ++ " - invalid token?".data], [], false)
    else if s = 403 then
      ([], [fn ++ ": Forbidden access to ".data ++ url ++ " - check permissions".data], true)
    else if 500 ≤ s then
      ([], [fn ++ ": Server error ".data ++ (Nat.repr s).data ++ " for ".data ++ url], false)
    else if 400 ≤ s then
      ([], [fn ++ ": Client error ".data ++ (Nat.repr s).data ++ " for ".data ++ url], false)
    else
      let w :=
        if containsSub "billing/credits".data url && s = 200 then
          match body with
          | none => [fn ++ ": Invalid JSON response from ".data ++ url]
          | some false => [fn ++ ": Unexpected response format from ".data ++ url]
          | some true => []
        else []
      ([], w, true)

/-- The two authenticated test endpoints (`lyceum_test_endpoints`). -/
def lyceum_test_endpoints : List (List Char) :=
  [ "https://api.lyceum.technology/api/v2/external/billing/credits".data
  , "https://api.lyceum.technology/api/v2/external/storage/list-files".data ]

/-- The public test endpoints (`test_endpoints`). -/
def public_test_endpoints : List (List Char) :=
  [ "https://jsonplaceholder.typicode.com/users".data
  , "https://jsonplaceholder.typicode.com/posts".data
  , "https://httpbin.org/get".data
  , "https://httpbin.org/headers".data ]

/-- Embedding of `DocumentationValidator.validate_api_endpoints`: extract all URLs,
clean each, and dispatch: Lyceum URLs get the structure check and,
given a token, a live probe when listed as testable; listed public URLs
get a reachability probe.  `tok` says whether an auth token was
supplied and `resp` gives each probe's outcome.  Result is
`(errors, warnings)`; the boolean the source returns is unused by its
caller. -/
def validate_api_endpoints (tok : Bool) (resp : List Char → HttpResult)
    (content fn : List Char) : List (List Char) × List (List Char) :=
  let res := (find_urls content.length content).map fun u0 =>
    let url := clean_url u0
    if containsSub "api.lyceum.technology".data url then
      let sw := validate_lyceum_endpoint_structure url fn
      let tw :=
        if tok && lyceum_test_endpoints.contains url then
          test_lyceum_endpoint (resp url) url fn
        else ([], [], true)
      (sw.1 ++ tw.1, sw.2 ++ tw.2.1)
    else if public_test_endpoints.contains url then
      ([], (test_endpoint_result (resp url) url fn).1)
    else ([], [])
  ((res.map Prod.fst).flatten, (res.map Prod.snd).flatten)

/-! Curl structure check, Python checks, and the per-file driver. -/

/-- Warnings of `DocumentationValidator.validate_curl_commands` for one
command (this check never records errors). -/
def curl_cmd_warnings (fn cmd : List Char) : List (List Char) :=
  if !(startsWithL "curl".data (stripL cmd)) then []
  else
    (if containsSub "api.lyceum.technology".data cmd then
      (if !(containsSub "Authorization: Bearer".data cmd) &&
          !(containsSub ("Authorization: Bearer <".data) cmd) then
        [fn ++ ": Lyceum API call missing Authorization header: ".data ++
          cmd.take 100 ++ "...".data]
      else []) ++
      (if !(containsSub "Content-Type: application/json".data cmd) &&
          containsSub "-d ".data cmd then
        [fn ++ ": JSON POST request missing Content-Type header: ".data ++
          cmd.take 100 ++ "...".data]
      else [])
    else []) ++
    (if !(containsSub "<TOKEN>".data cmd) && !(containsSub "<token>".data cmd) &&
        !(containsSub "Bearer <".data cmd) then
      (if containsSub "api.lyceum.technology".data cmd &&
          containsSub "Authorization:".data cmd then
        [fn ++ ": API call might contain real token instead of placeholder: ".data ++
          cmd.take 100 ++ "...".data]
      else [])
    else [])

/-- Outcome of `importlib.util.find_spec(base)` for a dot-free module
name.  CPython returns `None` (case `notFound`) for a missing top-level
module and raises nothing then; the exceptions the source catches
(`ImportError`, `ModuleNotFoundError`, `ValueError`, case `raisesErr`)
occur only in exotic situations such as an already-imported module with
`__spec__ = None`. -/
inductive FindSpecOutcome where
  | found
  | notFound
  | raisesErr
deriving DecidableEq, Repr

/-- The allow-list `common_packages` of
`DocumentationValidator.validate_python_imports`. -/
def common_packages : List (List Char) :=
  [ "requests".data, "pandas".data, "numpy".data, "matplotlib".data, "seaborn".data
  , "torch".data, "torchvision".data, "sklearn".data, "json".data, "os".data, "sys".data
  , "time".data, "datetime".data, "pathlib".data, "tempfile".data, "subprocess".data
  , "hashlib".data, "hmac".data, "base64".data, "random".data, "math".data
  , "collections".data, "functools".data, "itertools".data, "glob".data, "shutil".data
  , "urllib".data, "PIL".data, "cv2".data, "boto3".data, "fastapi".data
  , "uvicorn".data, "flask".data ]

/-- Join with a separator (`sep.join` in Python). -/
def joinSep (sep : List Char) : List (List Char) → List Char
  | [] => []
  | [x] => x
  | x :: xs => x ++ sep ++ joinSep sep xs

/-- Python list repr of a list of module names, as interpolated into the
warning message. -/
def renderNames (l : List (List Char)) : List Char :=
  '[' :: joinSep ", ".data (l.map fun s => sq :: s ++ [sq]) ++ [']']

/-- Embedding of `DocumentationValidator.validate_python_imports`, after `ast` has
produced the list of imported module names (`imps = none` models an
exception escaping the `try` block, recorded as an error).  A name is
problematic when its dot-free base is neither allow-listed nor private
and `find_spec` raises one of the caught exceptions.  When any name is
problematic a single warning listing them is recorded.  Returns
`(errors, warnings)`. -/
def validate_python_imports_result (fs : List Char → FindSpecOutcome)
    (imps : Option (List (List Char))) (fn : List Char) :
    List (List Char) × List (List Char) :=
  match imps with
  | none => ([fn ++ ": Error checking imports: ".data ++ excTag], [])
  | some imports =>
    let problematic := imports.filter fun imp =>
      let base := imp.takeWhile fun c => !(c == '.')
      !(common_packages.contains base) && !(startsWithL ['_'] base) &&
        (match fs base with
         | .raisesErr => true
         | _ => false)
    if problematic.isEmpty then ([], [])
    else ([], [fn ++ ": Potentially unavailable imports: ".data ++ renderNames problematic])

/-- Abstraction of the CPython `ast` calls made by the per-block Python
checks: `synRes code` is `none` when `ast.parse(clean_python_code(code))`
succeeds and `some msg` when it raises (`validate_python_syntax` then
records an error built from `msg`); `imports code` is the module-name
list collected by walking the parsed tree (`none` when that `try` block
raises). -/
structure PyOracle where
  synRes : List Char → Option (List Char)
  imports : List Char → Option (List (List Char))

/-- Error/warning contribution of one fenced block in the loop of
`DocumentationValidator.validate_file`: Python-tagged blocks get the
syntax and import checks, JSON-tagged blocks re-run the whole-document
JSON scan, other blocks contribute nothing. -/
def block_check (po : PyOracle) (fs : List Char → FindSpecOutcome)
    (content fn : List Char) (b : CodeBlock) : List (List Char) × List (List Char) :=
  if b.language == "python".data then
    let se :=
      match po.synRes b.code with
      | none => []
      | some m => [fn ++ ": Python syntax error in code block: ".data ++ m]
    let ir := validate_python_imports_result fs (po.imports b.code) fn
    (se ++ ir.1, ir.2)
  else if b.language == "json".data then validate_json_examples content fn
  else ([], [])

/-- Result of `DocumentationValidator.validate_file` on one document:
the per-file counters of its report dict plus the errors and warnings
the file's checks append to the validator's accumulator lists, in
execution order (block checks, then curl checks, then endpoint checks;
the curl check only produces warnings).  `jsonCheckErrors` is the
sub-list of `errors` contributed by the JSON validity check, kept as a
named component so its size can be stated. -/
structure FileResult where
  python_blocks : Nat
  json_blocks : Nat
  curl_count : Nat
  errors : List (List Char)
  warnings : List (List Char)
  jsonCheckErrors : List (List Char)
deriving DecidableEq, Repr

/-- Embedding of `DocumentationValidator.validate_file`. -/
def validate_file (po : PyOracle) (fs : List Char → FindSpecOutcome) (tok : Bool)
    (resp : List Char → HttpResult) (content fn : List Char) : FileResult :=
  let blocks := extract_code_blocks content
  let blockRes := blocks.map (block_check po fs content fn)
  let curls := extract_curl_commands content
  let ep := validate_api_endpoints tok resp content fn
  { python_blocks := (blocks.filter fun b => b.language == "python".data).length
    json_blocks := (blocks.filter fun b => b.language == "json".data).length
    curl_count := curls.length
    errors := (blockRes.map Prod.fst).flatten ++ ep.1
    warnings := (blockRes.map Prod.snd).flatten ++
      (curls.map (curl_cmd_warnings fn)).flatten ++ ep.2
    jsonCheckErrors := (blocks.map fun b =>
      if b.language == "json".data then (validate_json_examples content fn).1
      else []).flatten }

/-- The validator's two accumulator lists at the end of a run. -/
structure ValidatorState where
  errors : List (List Char)
  warnings : List (List Char)
deriving DecidableEq, Repr

/-- Final accumulator state of `DocumentationValidator.run_validation`
over a list of `(content, filename)` documents. -/
def run_validation_state (po : PyOracle) (fs : List Char → FindSpecOutcome)
    (tok : Bool) (resp : List Char → HttpResult)
    (files : List (List Char × List Char)) : ValidatorState :=
  let rs := files.map fun cf => validate_file po fs tok resp cf.1 cf.2
  { errors := (rs.map FileResult.errors).flatten
    warnings := (rs.map FileResult.warnings).flatten }

/-- Return value of `DocumentationValidator.run_validation`:
`len(self.errors) == 0`. -/
def run_validation_success (st : ValidatorState) : Bool := st.errors.isEmpty

/-- Exit code chosen by `main`: `sys.exit(1)` when `run_validation`
returned failure, otherwise `sys.exit(0)` both with and without
warnings. -/
def main_exit_code (st : ValidatorState) : Nat :=
  if !(run_validation_success st) then 1
  else if !st.warnings.isEmpty then 0
  else 0

/-! The fixer (`fix_common_issues.py`). -/

/-- Literal prefix of the curl-fix pattern. -/
def curlPost : List Char := "curl -X POST".data

/-- Start of the data-argument literal `-d '{`. -/
def dStartPat : List Char := "-d ".data ++ [sq, obr]

/-- One attempted match of the data-argument group `(-d \'{[^}]*}\')` at
the head of `cs`: the literal `-d '{`, a maximal brace-free run, then
`}'` (the class `[^}]*` leaves no backtracking choice).  Returns
`(matched, rest)`. -/
def data_arg_match (cs : List Char) : Option (List Char × List Char) :=
  if startsWithL dStartPat cs then
    let t := cs.drop 5
    let body := t.takeWhile fun c => !(c == cbr)
    match t.drop body.length with
    | b1 :: b2 :: rest =>
      if b1 = cbr && b2 = sq then some (dStartPat ++ body ++ [cbr, sq], rest)
      else none
    | _ => none
  else none

/-- The lazy group `[^\\]*?` of `fix_curl_headers`' pattern, searching
for the data argument: extend the span one non-backslash character at a
time, stopping at the first position where the data argument matches;
a backslash ends the search unsuccessfully.  Returns
`(span, dataArg, rest)`. -/
def lazy_span : Nat → List Char → Option (List Char × List Char × List Char)
  | 0, _ => none
  | f + 1, cs =>
    match data_arg_match cs with
    | some (d, rest) => some ([], d, rest)
    | none =>
      match cs with
      | [] => none
      | c :: cs' =>
        if c = '\\' then none
        else
          match lazy_span f cs' with
          | some (sp, d, r) => some (c :: sp, d, r)
          | none => none

/-- Like `lazy_span` but without the backslash cutoff: the first
position at which the data argument matches, with the characters before
it.  Used to state which inputs `fix_curl_headers` can rewrite. -/
def first_data_span : Nat → List Char → Option (List Char × List Char × List Char)
  | 0, _ => none
  | f + 1, cs =>
    match data_arg_match cs with
    | some (d, rest) => some ([], d, rest)
    | none =>
      match cs with
      | [] => none
      | c :: cs' =>
        match first_data_span f cs' with
        | some (sp, d, r) => some (c :: sp, d, r)
        | none => none

/-- One attempted match of
`(curl -X POST[^\\]*?)(-d \'{[^}]*}\')` (DOTALL) at the head of `cs`.
Returns `(group1, group2, rest)`. -/
def curl_match (cs : List Char) : Option (List Char × List Char × List Char) :=
  if startsWithL curlPost cs then
    match lazy_span ((cs.drop 12).length + 1) (cs.drop 12) with
    | some (sp, d, r) => some (curlPost ++ sp, d, r)
    | none => none
  else none

/-- The header text inserted by `add_content_type`:
`-H "Content-Type: application/json" \` then a newline and two spaces. -/
def hdrIns : List Char :=
  "-H ".data ++ [dq] ++ "Content-Type: application/json".data ++ [dq, ' ', '\\', '\n', ' ', ' ']

/-- Scan of `re.sub` for `fix_curl_headers`: at each match, `add_content_type`
keeps the match unchanged when group 1 already mentions `Content-Type:`
and otherwise inserts the header between the groups; scanning continues
after the match. -/
def fix_curl_scan : Nat → List Char → List Char
  | 0, cs => cs
  | f + 1, cs =>
    match curl_match cs with
    | some (g1, g2, rest) =>
      (if containsSub "Content-Type:".data g1 then g1 ++ g2 else g1 ++ hdrIns ++ g2) ++
        fix_curl_scan f rest
    | none =>
      match cs with
      | [] => []
      | c :: cs' => c :: fix_curl_scan f cs'

/-- Embedding of `fix_curl_headers`. -/
def fix_curl_headers (cs : List Char) : List Char := fix_curl_scan cs.length cs

/-- Embedding of `fix_json_formatting`.  The replacement string literal `'\\\\n'` is
the template `\\` + `n`, which `re.sub` interpolates as a literal
backslash followed by `n` - exactly the matched text - so each
substitution replaces `\n` by `\n` (and likewise for `\t`). -/
def fix_json_formatting (cs : List Char) : List Char :=
  str_replace ['\\', 't'] ['\\', 't'] (str_replace ['\\', 'n'] ['\\', 'n'] cs)

/-- The literal `"python_code":` opening the embedded-Python pattern. -/
def pcKey : List Char := dq :: "python_code".data ++ [dq, ':']

/-- One attempted match of `("python_code":\s*")(.*?)(")` (DOTALL) at
the head of `cs`: the key literal, greedy whitespace, an opening quote,
then the lazy body up to the next quote.  Returns
`(group1, group2, rest)` where `rest` follows the closing quote. -/
def pyjson_match (cs : List Char) : Option (List Char × List Char × List Char) :=
  if startsWithL pcKey cs then
    let t := cs.drop pcKey.length
    let ws := t.takeWhile isSpaceCh
    match t.drop ws.length with
    | q :: t2 =>
      if q = dq then
        let body := t2.takeWhile fun c => !(c == dq)
        match t2.drop body.length with
        | q2 :: rest =>
          if q2 = dq then some (pcKey ++ ws ++ [dq], body, rest) else none
        | [] => none
      else none
    | [] => none
  else none

/-- Embedding of `fix_embedded_python`: inside the matched body, `str.replace` doubles
each literal `\n` (here the replacement really is `\\n`: `str.replace`
does no template processing) and escapes double quotes (a no-op, since
the lazy body never contains one). -/
def fix_embedded_python (body : List Char) : List Char :=
  str_replace [dq] ['\\', dq] (str_replace ['\\', 'n'] ['\\', '\\', 'n'] body)

/-- Scan of `re.sub` for `fix_python_indentation_in_json`. -/
def fix_pyjson_scan : Nat → List Char → List Char
  | 0, cs => cs
  | f + 1, cs =>
    match pyjson_match cs with
    | some (g1, body, rest) => g1 ++ fix_embedded_python body ++ dq :: fix_pyjson_scan f rest
    | none =>
      match cs with
      | [] => []
      | c :: cs' => c :: fix_pyjson_scan f cs'

/-- Embedding of `fix_python_indentation_in_json`. -/
def fix_python_indentation_in_json (cs : List Char) : List Char :=
  fix_pyjson_scan cs.length cs

/-- The content transformation of `process_file`: the three rewrites in
order. -/
def process_file_content (cs : List Char) : List Char :=
  fix_python_indentation_in_json (fix_json_formatting (fix_curl_headers cs))

/-! Concrete inputs used to instantiate the claims. -/

/-- A filename tag for concrete instances. -/
def fnX : List Char := "doc.mdx".data

/-- The data argument `-d '{"a":1}'` of the curl example. -/
def c4_dataArg : List Char := "-d ".data ++ [sq, obr, dq] ++ "a".data ++ [dq, ':', '1', cbr, sq]

/-- Everything before the data argument in the curl example. -/
def c4_head : List Char := "curl -X POST https://api.lyceum.technology/x ".data

/-- The curl example `curl -X POST https://api.lyceum.technology/x -d '{"a":1}'`. -/
def c4_input : List Char := c4_head ++ c4_dataArg

/-- A curl command split across a continuation line before its data
argument: `curl -X POST u \` newline `-d '{"a":1}'`. -/
def c9_input : List Char :=
  "curl -X POST u ".data ++ ['\\', '\n', ' '] ++ c4_dataArg

/-- The JSON block `{"a": 1,}` with a trailing comma. -/
def trailing_comma_block : List Char := [obr, dq, 'a', dq, ':', ' ', '1', ',', cbr]

/-- A known storage endpoint URL. -/
def upUrl : List Char :=
  "https://api.lyceum.technology/api/v2/external/storage/upload".data

/-- A URL under the API domain with an unrecognized path shape. -/
def unkUrl : List Char :=
  "https://api.lyceum.technology/api/v2/external/unknown/thing".data

/-- The credits endpoint URL (in `lyceum_test_endpoints`). -/
def crUrl : List Char :=
  "https://api.lyceum.technology/api/v2/external/billing/credits".data

/-- A response environment where every request fails (never consulted by
the runs that use it). -/
def respA : List Char → HttpResult := fun _ => .exn []

/-- A Python oracle for documents without Python blocks. -/
def trivialPy : PyOracle := ⟨fun _ => none, fun _ => some []⟩

/-- A `find_spec` environment where no module resolves: CPython returns
`None` for every missing dot-free name. -/
def fsN : List Char → FindSpecOutcome := fun _ => .notFound

/-- The error message recorded for a 401 from the credits endpoint. -/
def auth_fail_msg : List Char :=
  fnX ++ ": Authentication failed for ".data ++ crUrl ++ " - invalid token?".data

/-- The condition under which `fix_curl_headers` leaves a text unchanged:
at every occurrence of `curl -X POST`, the characters between it and the
first following single-line `-d '{...}'` data argument (when one exists)
include a backslash. -/
def cont_line_cond (cs : List Char) : Bool :=
  (List.range cs.length).all fun i =>
    !(startsWithL curlPost (cs.drop i)) ||
      (match first_data_span (((cs.drop i).drop 12).length + 1) ((cs.drop i).drop 12) with
       | some (sp, _, _) => sp.contains '\\'
       | none => true)

/-! Helper lemmas. -/

/-- A successful prefix test decomposes the list. -/
theorem startsWithL_append_drop (p : List Char) :
    ∀ cs, startsWithL p cs = true → p ++ cs.drop p.length = cs := by
  induction p with
  | nil => intro cs _; simp
  | cons a ps ih =>
    intro cs h
    cases cs with
    | nil => simp [startsWithL] at h
    | cons c cs' =>
      simp only [startsWithL, Bool.and_eq_true, beq_iff_eq] at h
      simp only [List.length_cons, List.cons_append, List.drop_succ_cons]
      rw [h.1, ih cs' h.2]

/-- Substituting a pattern by itself changes nothing. -/
theorem substAll_self : ∀ (f : Nat) (pat cs : List Char), substAll f pat pat cs = cs := by
  intro f
  induction f with
  | zero => intro pat cs; rfl
  | succ f ih =>
    intro pat cs
    cases cs with
    | nil => rfl
    | cons c cs' =>
      simp only [substAll]
      by_cases h : startsWithL pat (c :: cs') = true
      · rw [if_pos h, ih]
        exact startsWithL_append_drop pat _ h
      · rw [if_neg h, ih]

/-- Error-count of one JSON block's check. -/
theorem json_block_err_length (fn code : List Char) :
    (json_block_result fn code).1.length =
      if jsonLoadsOk (clean_json_code code) then 0
      else if is_template_json code then 0 else 1 := by
  by_cases h1 : jsonLoadsOk (clean_json_code code) = true <;>
    by_cases h2 : is_template_json code = true <;>
    simp [json_block_result, h1, h2]

/-- Warning-count of one JSON block's check. -/
theorem json_block_warn_length (fn code : List Char) :
    (json_block_result fn code).2.length =
      if jsonLoadsOk (clean_json_code code) then 0
      else if is_template_json code then 1 else 0 := by
  by_cases h1 : jsonLoadsOk (clean_json_code code) = true <;>
    by_cases h2 : is_template_json code = true <;>
    simp [json_block_result, h1, h2]

/-- Flattening a map that emits a fixed list on selected elements. -/
theorem flatten_if_length {α β : Type} (P : α → Bool) (E : List β) :
    ∀ l : List α,
      ((l.map fun b => if P b then E else []).flatten).length = (l.filter P).length * E.length := by
  intro l
  induction l with
  | nil => simp
  | cons a l ih =>
    simp only [List.map_cons, List.flatten_cons, List.length_append, ih, List.filter_cons]
    by_cases h : P a = true
    · simp [h, Nat.succ_mul, Nat.add_comm]
    · simp [h]

/-- One whole-document JSON scan records one error per JSON block that
fails to parse after cleaning and carries no placeholder. -/
theorem json_scan_err_count (fn : List Char) :
    ∀ l : List CodeBlock,
      (((l.filter fun b => b.language == "json".data).map
          fun b => (json_block_result fn b.code).1).flatten).length =
      (l.filter fun b => b.language == "json".data &&
        !(jsonLoadsOk (clean_json_code b.code)) && !(is_template_json b.code)).length := by
  intro l
  induction l with
  | nil => rfl
  | cons b l ih =>
    simp only [List.filter_cons]
    by_cases hj : (b.language == "json".data) = true
    · by_cases h1 : jsonLoadsOk (clean_json_code b.code) = true
      · simp [hj, h1, ih, json_block_err_length]
      · by_cases h2 : is_template_json b.code = true
        · simp [hj, h1, h2, ih, json_block_err_length]
        · simp [hj, h1, h2, ih, json_block_err_length]
          omega
    · simp [hj, ih]

/-- A `lazy_span` success is also the unrestricted first data-argument
occurrence, and its span is backslash-free. -/
theorem lazy_span_to_first : ∀ (f : Nat) (cs sp d r : List Char),
    lazy_span f cs = some (sp, d, r) →
    first_data_span f cs = some (sp, d, r) ∧ sp.contains '\\' = false := by
  intro f
  induction f with
  | zero => intro cs sp d r h; simp [lazy_span] at h
  | succ f ih =>
    intro cs sp d r h
    simp only [lazy_span] at h
    simp only [first_data_span]
    cases hd : data_arg_match cs with
    | some v =>
      obtain ⟨d0, r0⟩ := v
      rw [hd] at h
      have h' : some (([] : List Char), d0, r0) = some (sp, d, r) := h
      simp only [Option.some.injEq, Prod.mk.injEq] at h'
      obtain ⟨h1, h2, h3⟩ := h'
      subst h1; subst h2; subst h3
      exact ⟨rfl, rfl⟩
    | none =>
      rw [hd] at h
      cases cs with
      | nil =>
        exact absurd (h : (none : Option (List Char × List Char × List Char)) = some (sp, d, r))
          (by simp)
      | cons c cs' =>
        have h' : (if c = '\\' then none
            else
              match lazy_span f cs' with
              | some (sp, d, r) => some (c :: sp, d, r)
              | none => none) = some (sp, d, r) := h
        show (match first_data_span f cs' with
          | some (sp, d, r) => some (c :: sp, d, r)
          | none => none) = some (sp, d, r) ∧ sp.contains '\\' = false
        by_cases hc : c = '\\'
        · rw [if_pos hc] at h'; exact absurd h' (by simp)
        · rw [if_neg hc] at h'
          cases hl : lazy_span f cs' with
          | none =>
            rw [hl] at h'
            exact absurd
              (h' : (none : Option (List Char × List Char × List Char)) = some (sp, d, r))
              (by simp)
          | some v =>
            obtain ⟨sp0, d0, r0⟩ := v
            rw [hl] at h'
            have h'' : some (c :: sp0, d0, r0) = some (sp, d, r) := h'
            simp only [Option.some.injEq, Prod.mk.injEq] at h''
            obtain ⟨h1, h2, h3⟩ := h''
            subst h1; subst h2; subst h3
            obtain ⟨hf, hnb⟩ := ih cs' sp0 d0 r0 hl
            rw [hf]
            refine ⟨rfl, ?_⟩
            simp only [List.contains_cons, Bool.or_eq_false_iff]
            exact ⟨by simpa using Ne.symm hc, hnb⟩

/-- When no position of the text matches the curl-fix pattern, the scan
copies the text. -/
theorem fix_curl_scan_id : ∀ (f : Nat) (cs : List Char),
    (∀ n, curl_match (cs.drop n) = none) → fix_curl_scan f cs = cs := by
  intro f
  induction f with
  | zero => intro cs _; rfl
  | succ f ih =>
    intro cs h
    have h0 := h 0
    simp only [List.drop_zero] at h0
    simp only [fix_curl_scan, h0]
    cases cs with
    | nil => rfl
    | cons c cs' =>
      show c :: fix_curl_scan f cs' = c :: cs'
      rw [ih cs' fun n => by simpa using h (n + 1)]

/-! Claim theorems. -/

/-- C1: On the claim's two blocks the import check records, for
`import numpy`, no warning (numpy is allow-listed, whatever `find_spec`
does), and for `import some_unpublished_pkg_xyz` with the module not
locally importable (CPython's `find_spec` then returns `None` without
raising) likewise NO warning - the source only flags a module when
`find_spec` raises one of the caught exceptions, which never happens for
a missing dot-free name, so the claimed single warning is not recorded. -/
theorem import_check_on_claim_blocks :
    (∀ fs, validate_python_imports_result fs (some ["numpy".data]) fnX = ([], [])) ∧
    validate_python_imports_result fsN (some ["some_unpublished_pkg_xyz".data]) fnX = ([], []) := by
  constructor
  · intro fs
    have hb : common_packages.contains (("numpy".data).takeWhile fun c => !(c == '.')) = true := by
      decide
    simp [validate_python_imports_result, List.filter, hb]
    have hm : decide (['n', 'u', 'm', 'p', 'y'] ∈ common_packages) = true := by decide
    rw [hm]
    rfl
  · decide

/-- C2: A JSON-tagged block whose cleaned text fails to parse records
exactly one error when the original text has no placeholder token and
exactly one warning (no error) when it has one; a block whose cleaned
text parses records neither.  In particular the block with a trailing
comma parses after cleaning and records nothing. -/
theorem json_parse_failure_severity :
    (∀ fn code,
      (json_block_result fn code).1.length =
        (if jsonLoadsOk (clean_json_code code) then 0
         else if is_template_json code then 0 else 1) ∧
      (json_block_result fn code).2.length =
        (if jsonLoadsOk (clean_json_code code) then 0
         else if is_template_json code then 1 else 0)) ∧
    jsonLoadsOk (clean_json_code trailing_comma_block) = true ∧
    json_block_result fnX trailing_comma_block = ([], []) := by
  refine ⟨fun fn code => ⟨json_block_err_length fn code, json_block_warn_length fn code⟩,
    by decide, by decide⟩

/-- C3: The exit code is 0 exactly when the accumulated error list is
empty, and the warning list never influences it. -/
theorem exit_code_zero_iff_no_errors :
    ∀ e w, main_exit_code ⟨e, w⟩ = (if e = [] then 0 else 1) ∧
      (∀ w', main_exit_code ⟨e, w⟩ = main_exit_code ⟨e, w'⟩) := by
  intro e w
  constructor
  · cases e with
    | nil => simp [main_exit_code, run_validation_success]
    | cons a e' =>
      simp only [main_exit_code, run_validation_success, List.isEmpty_cons, Bool.not_false,
        if_true]
      simp
  · intro w'
    cases e with
    | nil => simp [main_exit_code, run_validation_success]
    | cons a e' => simp [main_exit_code, run_validation_success]

/-- C4: The fixer turns the Content-Type-less curl example into the same
command with the header inserted immediately before the `-d` argument,
and a second run of the fixer leaves that result unchanged. -/
theorem curl_fix_header_and_idempotent :
    process_file_content c4_input = c4_head ++ hdrIns ++ c4_dataArg ∧
    process_file_content (c4_head ++ hdrIns ++ c4_dataArg) = c4_head ++ hdrIns ++ c4_dataArg := by
  exact ⟨by decide, by decide⟩

/-- C5: The known storage-upload URL yields no endpoint warning, the
unknown-path URL yields exactly the one unrecognized-pattern warning,
and for every URL the structure check records no error and exactly one
warning when no expected shape matches. -/
theorem endpoint_shape_check_warn_only :
    validate_api_endpoints false respA upUrl fnX = ([], []) ∧
    validate_api_endpoints false respA unkUrl fnX =
      ([], [fnX ++ ": Unrecognized Lyceum endpoint pattern: ".data ++ unkUrl]) ∧
    (∀ url fn, (validate_lyceum_endpoint_structure url fn).1 = [] ∧
      (validate_lyceum_endpoint_structure url fn).2.length =
        (if expected_shapes.any (fun p => startsWithL p url) then 0 else 1)) := by
  refine ⟨by decide, by decide, fun url fn => ?_⟩
  by_cases h : expected_shapes.any (fun p => startsWithL p url) = true <;>
    simp [validate_lyceum_endpoint_structure, h]

/-- C6: With a token supplied and a single document mentioning only the
credits test endpoint, a 401 probe response yields exactly one error,
which mentions the authentication failure, no warnings, and an overall
failure flag; a 403 response instead yields no error and one warning. -/
theorem auth_probe_401_is_error :
    (run_validation_state trivialPy fsN true (fun _ => .resp 401 none) [(crUrl, fnX)]).errors =
      [auth_fail_msg] ∧
    containsSub "Authentication failed".data auth_fail_msg = true ∧
    (run_validation_state trivialPy fsN true (fun _ => .resp 401 none) [(crUrl, fnX)]).warnings = [] ∧
    run_validation_success
      (run_validation_state trivialPy fsN true (fun _ => .resp 401 none) [(crUrl, fnX)]) = false ∧
    (run_validation_state trivialPy fsN true (fun _ => .resp 403 none) [(crUrl, fnX)]).errors = [] ∧
    (run_validation_state trivialPy fsN true (fun _ => .resp 403 none) [(crUrl, fnX)]).warnings.length = 1 := by
  refine ⟨by decide, by decide, by decide, by decide, by decide, by decide⟩

/-- C7: A document without fenced code blocks and without URLs validates
with zero errors, zero warnings, and all-zero per-file counts. -/
theorem empty_doc_validates_clean (po : PyOracle) (fs : List Char → FindSpecOutcome)
    (tok : Bool) (resp : List Char → HttpResult) (content fn : List Char)
    (h1 : extract_code_blocks content = [])
    (h2 : find_urls content.length content = []) :
    validate_file po fs tok resp content fn = ⟨0, 0, 0, [], [], []⟩ := by
  simp [validate_file, extract_curl_commands, validate_api_endpoints, h1, h2]

/-- C7 witness at a concrete block-free, URL-free document. -/
theorem empty_doc_validates_clean_witness :
    extract_code_blocks "hello world".data = [] ∧
    find_urls ("hello world".data).length "hello world".data = [] ∧
    validate_file trivialPy fsN false respA "hello world".data fnX = ⟨0, 0, 0, [], [], []⟩ :=
  ⟨by decide, by decide,
    empty_doc_validates_clean trivialPy fsN false respA "hello world".data fnX
      (by decide) (by decide)⟩

/-- C8: A validation run of one file records n * k invalid-JSON errors,
where n is the number of JSON-tagged blocks and k the number of them
that fail to parse after cleaning without a placeholder: the per-file
loop re-runs the whole-document JSON scan once per JSON block. -/
theorem json_errors_scale_n_times_k (po : PyOracle) (fs : List Char → FindSpecOutcome)
    (tok : Bool) (resp : List Char → HttpResult) (content fn : List Char) :
    (validate_file po fs tok resp content fn).jsonCheckErrors.length =
      ((extract_code_blocks content).filter fun b => b.language == "json".data).length *
      ((extract_code_blocks content).filter fun b =>
        b.language == "json".data && !(jsonLoadsOk (clean_json_code b.code)) &&
        !(is_template_json b.code)).length := by
  show ((extract_code_blocks content).map fun b =>
      if b.language == "json".data then (validate_json_examples content fn).1
      else []).flatten.length = _
  rw [flatten_if_length (fun b => b.language == "json".data)
    ((validate_json_examples content fn).1) (extract_code_blocks content)]
  congr 1
  show (((((extract_code_blocks content).filter fun b => b.language == "json".data).map
      fun b => json_block_result fn b.code).map Prod.fst).flatten).length = _
  rw [List.map_map]
  exact json_scan_err_count fn (extract_code_blocks content)

/-- C9: When every `curl -X POST` occurrence is separated from its first
following single-line `-d '{...}'` data argument by a backslash (a
continuation line), the header-insertion rewrite leaves the text
unchanged. -/
theorem continuation_curl_unchanged (cs : List Char)
    (h : cont_line_cond cs = true) : fix_curl_headers cs = cs := by
  apply fix_curl_scan_id
  intro n
  by_cases hn : n < cs.length
  · have hh := (List.all_eq_true.mp h) n (List.mem_range.mpr hn)
    by_cases hs : startsWithL curlPost (cs.drop n) = true
    · have hm : (match first_data_span ((((cs.drop n).drop 12)).length + 1) ((cs.drop n).drop 12) with
          | some (sp, _, _) => sp.contains '\\'
          | none => true) = true := by
        rw [Bool.or_eq_true] at hh
        rcases hh with hl | hr
        · rw [hs] at hl; simp at hl
        · exact hr
      unfold curl_match
      rw [if_pos hs]
      cases hl : lazy_span (((cs.drop n).drop 12).length + 1) ((cs.drop n).drop 12) with
      | none => rfl
      | some v =>
        obtain ⟨sp, d, r⟩ := v
        obtain ⟨hf, hnb⟩ := lazy_span_to_first _ _ _ _ _ hl
        rw [hf] at hm
        have hm' : sp.contains '\\' = true := hm
        rw [hnb] at hm'
        simp at hm'
    · unfold curl_match
      rw [if_neg hs]
  · have hd : cs.drop n = [] := List.drop_eq_nil_of_le (Nat.le_of_not_lt hn)
    rw [hd]
    decide

/-- C9 witness: a curl command whose data argument sits on a
continuation line is left unchanged. -/
theorem continuation_curl_unchanged_witness :
    cont_line_cond c9_input = true ∧ fix_curl_headers c9_input = c9_input :=
  ⟨by decide, continuation_curl_unchanged c9_input (by decide)⟩

/-- C10 counterexample: one application of the escape-normalization
rewrite maps the two-character text backslash-n to itself, not to the
claimed backslash-backslash-n. -/
theorem escape_rewrite_not_doubling :
    fix_json_formatting ['\\', 'n'] = ['\\', 'n'] ∧
    ¬(fix_json_formatting ['\\', 'n'] = ['\\', '\\', 'n']) := by
  exact ⟨by decide, by decide⟩

/-- C10 amended: the escape-normalization rewrite is the identity on
every input (its replacement template collapses to the matched text),
hence idempotent - two applications equal one. -/
theorem escape_rewrite_identity :
    ∀ cs, fix_json_formatting cs = cs ∧
      fix_json_formatting (fix_json_formatting cs) = fix_json_formatting cs := by
  intro cs
  have h : ∀ t, fix_json_formatting t = t := fun t => by
    unfold fix_json_formatting str_replace
    rw [substAll_self, substAll_self]
  exact ⟨h cs, h _⟩

end DocsVal
